import Mathlib

/-!
Verification of the PETPVC correction drivers (RBV.cxx and IterativeYang.cxx)
against their natural-language specification.

Volumes are shallowly embedded as functions from a finite voxel index type to
exact rationals; the elementwise image filters of the external image library
(multiply, divide, add, scalar multiply) become the corresponding pointwise
operations, and the Gaussian blur filter is carried as an abstract
volume-to-volume function, exactly as getRBVImage in the source receives its
blur filter as a parameter.  Floating-point arithmetic is idealised to exact
rational arithmetic; where the distinction finite-versus-non-finite matters
(the unguarded regional-mean division) a dedicated value type records it.
-/

namespace Petpvc

/-- A 3-D image volume over a voxel index type: a dense grid of samples.
Mirrors PETImageType (itk Image of float, dimension 3) in RBV.cxx. -/
abbrev Volume (ι : Type) := ι → ℚ

/-- Elementwise product of two volumes: itk MultiplyImageFilter with two
image inputs (RBV.cxx MultiplyFilterType). -/
def mulVol {ι : Type} (A B : Volume ι) : Volume ι := fun v => A v * B v

/-- Elementwise quotient of two volumes: itk DivideImageFilter
(RBV.cxx DivideFilterType).  Division is the total rational division. -/
def divVol {ι : Type} (A B : Volume ι) : Volume ι := fun v => A v / B v

/-- Elementwise sum of two volumes: itk AddImageFilter (RBV.cxx AddFilterType). -/
def addVol {ι : Type} (A B : Volume ι) : Volume ι := fun v => A v + B v

/-- Volume times scalar: itk MultiplyImageFilter with a constant second input,
as used in getSyntheticPET (multiplyFilter input2 is a scalar mean). -/
def scaleVol {ι : Type} (A : Volume ι) (c : ℚ) : Volume ι := fun v => A v * c

/-- One iteration of the getSyntheticPET loop body (RBV.cxx lines 333-359):
the region mask for class j is multiplied by its corrected mean; on the first
iteration the accumulator is created from that product, on later iterations
the product is added to the accumulator.  A `none` accumulator models the
default-constructed (null) imageResult pointer before the first iteration. -/
def synthStep {ι : Type} {K : ℕ} (mask : Fin K → Volume ι) (means : Fin K → ℚ)
    (acc : Option (Volume ι)) (j : Fin K) : Option (Volume ι) :=
  match acc with
  | none => some (scaleVol (mask j) (means j))
  | some w => some (addVol w (scaleVol (mask j) (means j)))

/-- getSyntheticPET (RBV.cxx lines 311-362): builds the pseudo PET image by
looping over the K region classes of the 4-D mask, painting each region with
its corrected mean and accumulating.  The result pointer starts out null and
is only assigned inside the loop, hence the `Option`. -/
def getSyntheticPET {ι : Type} (K : ℕ) (mask : Fin K → Volume ι)
    (means : Fin K → ℚ) : Option (Volume ι) :=
  (List.finRange K).foldl (synthStep mask means) none

/-- getRBVImage (RBV.cxx lines 364-391): blur the synthetic PET by the PSF,
take the elementwise ratio of synthetic to blurred synthetic, and multiply the
original PET by that ratio.  The blur filter is a parameter, exactly as the
C++ function takes pBlurFilter. -/
def getRBVImage {ι : Type} (origPET syntheticPET : Volume ι)
    (blur : Volume ι → Volume ι) : Volume ι :=
  mulVol origPET (divVol syntheticPET (blur syntheticPET))

section SynthCharacterisation

variable {ι : Type} {K : ℕ}

/-- Folding the getSyntheticPET loop from an already-assigned accumulator adds
the painted regions of the remaining classes pointwise. -/
lemma foldl_synthStep_some (mask : Fin K → Volume ι) (means : Fin K → ℚ)
    (l : List (Fin K)) (w : Volume ι) :
    l.foldl (synthStep mask means) (some w) =
      some (fun v => w v + (l.map (fun j => mask j v * means j)).sum) := by
  induction l generalizing w with
  | nil => simp
  | cons j t ih =>
      simp only [List.foldl_cons, synthStep, addVol, scaleVol]
      rw [ih]
      apply congrArg
      funext v
      simp [addVol, scaleVol, add_assoc]

/-- For at least one region class, getSyntheticPET returns the volume whose
value at each voxel is the sum over classes of mask times corrected mean. -/
lemma getSyntheticPET_eq_sum (hK : 1 ≤ K) (mask : Fin K → Volume ι)
    (means : Fin K → ℚ) :
    getSyntheticPET K mask means =
      some (fun v => ∑ j : Fin K, mask j v * means j) := by
  obtain ⟨n, rfl⟩ : ∃ n, K = n + 1 := ⟨K - 1, (Nat.succ_pred_eq_of_pos hK).symm⟩
  unfold getSyntheticPET
  rw [List.finRange_succ_eq_map]
  simp only [List.foldl_cons, synthStep, scaleVol]
  rw [List.foldl_map, show (fun (acc : Option (Volume ι)) (j : Fin n) =>
        synthStep mask means acc j.succ) =
      (fun acc j => synthStep (fun j : Fin n => mask j.succ)
        (fun j => means j.succ) acc j) from rfl]
  rw [foldl_synthStep_some]
  apply congrArg
  funext v
  rw [Fin.sum_univ_succ]
  apply congrArg
  exact (Fin.sum_univ_def _).symm

end SynthCharacterisation

/-- C6.  The RBV corrector computes output = original times
(synthetic / blur(synthetic)) elementwise; in particular at a voxel where the
blurred synthetic vanishes the division is still performed with no special
case (with the total rational division of the embedding, a voxel where both
synthetic and blurred synthetic vanish receives the junk quotient 0, hence
output 0). -/
theorem claim_C6_rbv_ratio {ι : Type} (origPET syntheticPET : Volume ι)
    (blur : Volume ι → Volume ι) (v : ι) :
    getRBVImage origPET syntheticPET blur v =
      origPET v * (syntheticPET v / blur syntheticPET v) ∧
    (blur syntheticPET v = 0 → syntheticPET v = 0 →
      getRBVImage origPET syntheticPET blur v = 0) := by
  refine ⟨rfl, fun hb hs => ?_⟩
  simp [getRBVImage, mulVol, divVol, hb, hs]

/-- Witness for C6 at a concrete one-voxel volume with identity blur. -/
theorem claim_C6_rbv_ratio_witness :
    getRBVImage (ι := Fin 1) (fun _ => 5) (fun _ => 0) id 0 = 0 := by
  have h := claim_C6_rbv_ratio (ι := Fin 1) (fun _ => 5) (fun _ => 0) id 0
  exact h.2 rfl rfl

/-- C7.  For a RegionMaskSet with K at least 1 and a corrected-mean vector of
length K, getSyntheticPET produces the volume whose value at every voxel is
the sum over classes j of correctedMean j times the class-j indicator; a voxel
belonging to no region (all indicators zero there) receives value 0. -/
theorem claim_C7_synthetic_sum {ι : Type} {K : ℕ} (hK : 1 ≤ K)
    (mask : Fin K → Volume ι) (means : Fin K → ℚ) :
    getSyntheticPET K mask means =
      some (fun v => ∑ j : Fin K, means j * mask j v) ∧
    (∀ v : ι, (∀ j : Fin K, mask j v = 0) →
      (fun v => ∑ j : Fin K, means j * mask j v) v = 0) := by
  constructor
  · rw [getSyntheticPET_eq_sum hK]
    apply congrArg
    funext v
    exact Finset.sum_congr rfl (fun j _ => mul_comm _ _)
  · intro v hv
    simp only
    exact Finset.sum_eq_zero (fun j _ => by rw [hv j, mul_zero])

/-- Witness for C7: two regions over a two-voxel grid, each region one voxel,
means 3 and 7; the synthetic volume paints each voxel with its region mean. -/
theorem claim_C7_synthetic_sum_witness :
    getSyntheticPET (ι := Fin 2) 2
        (fun j v => if v.val = j.val then 1 else 0) (fun j => 3 + 4 * j.val) =
      some (fun v => ∑ j : Fin 2, (3 + 4 * (j.val : ℚ)) *
        (if v.val = j.val then 1 else 0)) := by
  have h := claim_C7_synthetic_sum (ι := Fin 2) (K := 2) (by norm_num)
    (fun j v => if v.val = j.val then 1 else 0)
    (fun j => 3 + 4 * (j.val : ℚ))
  exact h.1

/-- C10.  getSyntheticPET with an empty regional-mean vector (K = 0) never
assigns its result image and returns the null pointer (`none`); an assigned
output exists exactly when K is at least 1. -/
theorem claim_C10_empty_mask_null :
    (∀ (mask : Fin 0 → Volume (Fin 1)) (means : Fin 0 → ℚ),
      getSyntheticPET 0 mask means = none) ∧
    (∀ {ι : Type} (K : ℕ) (mask : Fin K → Volume ι) (means : Fin K → ℚ),
      (getSyntheticPET K mask means).isSome ↔ 1 ≤ K) := by
  constructor
  · intro mask means
    rfl
  · intro ι K mask means
    constructor
    · intro h
      by_contra hK
      have hK0 : K = 0 := by omega
      subst hK0
      simp [getSyntheticPET] at h
    · intro hK
      rw [getSyntheticPET_eq_sum hK]
      rfl

/-! ## The linear solve step (RBV.cxx line 274)

The corrected means are computed as `vnl_matrix_inverse<float>(GTM) * observed`.
vnl_matrix_inverse is an SVD-based pseudo-inverse: for a nonsingular matrix it
is the exact inverse, for a singular matrix it zeroes the vanishing singular
values and yields the Moore-Penrose pseudo-inverse, producing a result vector
without any error, singularity test, or condition-number threshold.  For the
2-by-2 matrices of the 2-region scenarios the pseudo-inverse has an exact
rational closed form: the inverse when the determinant is nonzero, the zero
matrix for the zero matrix, and transpose divided by the sum of squared
entries for a nonzero singular (rank-one) matrix. -/

/-- A 2-vector of regional means (vnl_vector of floats with two entries). -/
structure Vec2 where
  x : ℚ
  y : ℚ
deriving DecidableEq

/-- A 2-by-2 matrix in row-major order: row one is (a b), row two is (c d). -/
structure Mat2 where
  a : ℚ
  b : ℚ
  c : ℚ
  d : ℚ
deriving DecidableEq

/-- Determinant of a 2-by-2 matrix. -/
def det2 (M : Mat2) : ℚ := M.a * M.d - M.b * M.c

/-- Matrix-vector product. -/
def mulVec2 (M : Mat2) (v : Vec2) : Vec2 :=
  ⟨M.a * v.x + M.b * v.y, M.c * v.x + M.d * v.y⟩

/-- Matrix-matrix product. -/
def mul2 (M N : Mat2) : Mat2 :=
  ⟨M.a * N.a + M.b * N.c, M.a * N.b + M.b * N.d,
   M.c * N.a + M.d * N.c, M.c * N.b + M.d * N.d⟩

/-- Transpose. -/
def transpose2 (M : Mat2) : Mat2 := ⟨M.a, M.c, M.b, M.d⟩

/-- Scalar times matrix. -/
def smul2 (q : ℚ) (M : Mat2) : Mat2 := ⟨q * M.a, q * M.b, q * M.c, q * M.d⟩

/-- The zero matrix. -/
def mat2Zero : Mat2 := ⟨0, 0, 0, 0⟩

/-- Sum of the squared entries (the squared Frobenius norm). -/
def sumSq2 (M : Mat2) : ℚ := M.a ^ 2 + M.b ^ 2 + M.c ^ 2 + M.d ^ 2

/-- Exact inverse of a nonsingular 2-by-2 matrix. -/
def inv2 (M : Mat2) : Mat2 :=
  ⟨M.d / det2 M, -M.b / det2 M, -M.c / det2 M, M.a / det2 M⟩

/-- The SVD pseudo-inverse computed by vnl_matrix_inverse, specialised to
2-by-2 in exact arithmetic: exact inverse when nonsingular, zero for the zero
matrix, transpose over the squared Frobenius norm for a rank-one matrix. -/
def pinv2 (M : Mat2) : Mat2 :=
  if det2 M ≠ 0 then inv2 M
  else if M = mat2Zero then mat2Zero
  else smul2 (1 / sumSq2 M) (transpose2 M)

/-- The linear solve of RBV.cxx line 274: corrected means are the
pseudo-inverse of the GTM applied to the observed means, unconditionally. -/
def vnlSolve2 (M : Mat2) (v : Vec2) : Vec2 := mulVec2 (pinv2 M) v

/-- A nonzero matrix has nonzero squared Frobenius norm. -/
lemma sumSq2_ne_zero {M : Mat2} (h : M ≠ mat2Zero) : sumSq2 M ≠ 0 := by
  obtain ⟨a, b, c, d⟩ := M
  intro h0
  apply h
  simp only [sumSq2] at h0
  have ha : a = 0 := by nlinarith [sq_nonneg a, sq_nonneg b, sq_nonneg c, sq_nonneg d]
  have hb : b = 0 := by nlinarith [sq_nonneg a, sq_nonneg b, sq_nonneg c, sq_nonneg d]
  have hc : c = 0 := by nlinarith [sq_nonneg a, sq_nonneg b, sq_nonneg c, sq_nonneg d]
  have hd : d = 0 := by nlinarith [sq_nonneg a, sq_nonneg b, sq_nonneg c, sq_nonneg d]
  simp [mat2Zero, ha, hb, hc, hd]

/-- C1 counterexample.  The spec scenario is numerically inconsistent with the
code: for the GTM (0.8 0.2 / 0.2 0.8) and observed means (84, 16), the solve
at RBV.cxx line 274 returns (320/3, -20/3), not (100, 0) — the discrepancy of
20/3 per component is far beyond any floating tolerance.  (The stated matrix
maps true means (100, 0) to observed means (80, 20), not (84, 16).) -/
theorem claim_C1_solver_cex :
    vnlSolve2 ⟨4/5, 1/5, 1/5, 4/5⟩ ⟨84, 16⟩ = ⟨320/3, -20/3⟩ ∧
    vnlSolve2 ⟨4/5, 1/5, 1/5, 4/5⟩ ⟨84, 16⟩ ≠ ⟨100, 0⟩ := by
  have h : vnlSolve2 ⟨4/5, 1/5, 1/5, 4/5⟩ ⟨84, 16⟩ = ⟨320/3, -20/3⟩ := by
    norm_num [vnlSolve2, pinv2, det2, inv2, mulVec2, Vec2.mk.injEq]
  refine ⟨h, ?_⟩
  rw [h]
  norm_num [Vec2.mk.injEq]

/-- C1 amended.  The solver satisfies the contract
`M · corrected = observed` for every nonsingular GTM, and for the 2-region
matrix (0.8 0.2 / 0.2 0.8) with observed means (80, 20) — the contamination
that matrix actually produces from true means (100, 0) — it returns corrected
means exactly (100, 0). -/
theorem claim_C1_solver_contract :
    (∀ (M : Mat2) (v : Vec2), det2 M ≠ 0 → mulVec2 M (vnlSolve2 M v) = v) ∧
    vnlSolve2 ⟨4/5, 1/5, 1/5, 4/5⟩ ⟨80, 20⟩ = ⟨100, 0⟩ := by
  constructor
  · intro M v hM
    obtain ⟨a, b, c, d⟩ := M
    obtain ⟨x, y⟩ := v
    simp only [det2] at hM
    simp only [vnlSolve2, pinv2, det2, inv2, mulVec2, ne_eq, hM,
      not_false_eq_true, if_true]
    simp only [Vec2.mk.injEq]
    constructor <;> field_simp <;> ring
  · norm_num [vnlSolve2, pinv2, det2, inv2, mulVec2, Vec2.mk.injEq]

/-- Witness for C1: the contract applied to the concrete scenario matrix and
an arbitrary concrete observed vector. -/
theorem claim_C1_solver_contract_witness :
    mulVec2 ⟨4/5, 1/5, 1/5, 4/5⟩
      (vnlSolve2 ⟨4/5, 1/5, 1/5, 4/5⟩ ⟨7, 9⟩) = ⟨7, 9⟩ :=
  claim_C1_solver_contract.1 ⟨4/5, 1/5, 1/5, 4/5⟩ ⟨7, 9⟩ (by norm_num [det2])

/-- C5 counterexample.  For the singular GTM (1 1 / 1 1) and observed means
(84, 16) the solve at RBV.cxx line 274 does not fail: vnl_matrix_inverse
silently computes the SVD pseudo-inverse and a corrected-mean vector (25, 25)
is produced and the run continues — there is no SingularMatrixError, no
condition-number threshold, and no abort. -/
theorem claim_C5_singular_cex :
    vnlSolve2 ⟨1, 1, 1, 1⟩ ⟨84, 16⟩ = ⟨25, 25⟩ := by
  norm_num [vnlSolve2, pinv2, det2, sumSq2, smul2, transpose2, mat2Zero,
    mulVec2, Vec2.mk.injEq, Mat2.mk.injEq]

/-- C5 amended.  A singular GTM does not abort the run: the solver applies
the Moore-Penrose pseudo-inverse (for a nonzero singular 2-by-2 matrix, the
transpose divided by the squared Frobenius norm, satisfying the Penrose
identity `M · M⁺ · M = M`) and a corrected-mean vector is always produced. -/
theorem claim_C5_singular_pseudo (M : Mat2) (hdet : det2 M = 0)
    (hM : M ≠ mat2Zero) :
    pinv2 M = smul2 (1 / sumSq2 M) (transpose2 M) ∧
    mul2 M (mul2 (pinv2 M) M) = M := by
  have hpinv : pinv2 M = smul2 (1 / sumSq2 M) (transpose2 M) := by
    simp [pinv2, hdet, hM]
  refine ⟨hpinv, ?_⟩
  rw [hpinv]
  have hs : sumSq2 M ≠ 0 := sumSq2_ne_zero hM
  obtain ⟨a, b, c, d⟩ := M
  simp only [det2] at hdet
  simp only [sumSq2] at hs
  simp only [mul2, smul2, transpose2, sumSq2, Mat2.mk.injEq]
  refine ⟨?_, ?_, ?_, ?_⟩
  · field_simp
    linear_combination (-d) * hdet
  · field_simp
    linear_combination c * hdet
  · field_simp
    linear_combination b * hdet
  · field_simp
    linear_combination (-a) * hdet

/-- Witness for C5 at the singular rank-one matrix (1 1 / 1 1). -/
theorem claim_C5_singular_pseudo_witness :
    pinv2 ⟨1, 1, 1, 1⟩ = smul2 (1 / sumSq2 ⟨1, 1, 1, 1⟩)
      (transpose2 ⟨1, 1, 1, 1⟩) ∧
    mul2 ⟨1, 1, 1, 1⟩ (mul2 (pinv2 ⟨1, 1, 1, 1⟩) ⟨1, 1, 1, 1⟩) = ⟨1, 1, 1, 1⟩ :=
  claim_C5_singular_pseudo ⟨1, 1, 1, 1⟩ (by norm_num [det2])
    (by norm_num [mat2Zero, Mat2.mk.injEq])

/-! ## PSF variance computation

Both drivers first compute, per axis, sigma = FWHM / (2 sqrt(2 ln 2))
(RBV.cxx line 168, IterativeYang.cxx line 153, textually identical).  The
irrational constant is kept symbolic: the functions below take sigma itself.
They model the divergent squaring steps: RBV.cxx lines 175-177 divide sigma
by the voxel spacing of the axis before squaring, while IterativeYang.cxx
lines 159-161 square sigma directly — the voxel-size vector read at
IterativeYang.cxx line 156 is never used. -/

/-- RBV.cxx lines 175-177: variance of one axis, from the FWHM-derived sigma
and the voxel spacing of that axis. -/
def rbvAxisVariance (sigma spacing : ℚ) : ℚ := (sigma / spacing) ^ 2

/-- IterativeYang.cxx lines 159-161: variance of one axis, from the
FWHM-derived sigma alone; no division by voxel spacing. -/
def iyAxisVariance (sigma : ℚ) : ℚ := sigma ^ 2

/-- C2 counterexample.  The Iterative Yang driver does not divide the
FWHM-derived sigma by the voxel spacing: for sigma = 1 on an axis with
spacing 2, it hands variance 1 to the blur, while the formula of the claim,
(sigma / spacing) squared — which is what the RBV driver computes — gives
1/4. -/
theorem claim_C2_variance_cex :
    iyAxisVariance 1 = 1 ∧ rbvAxisVariance 1 2 = 1/4 ∧
    iyAxisVariance 1 ≠ (1 / 2 : ℚ) ^ 2 := by
  norm_num [iyAxisVariance, rbvAxisVariance]

/-- C2 amended.  Only the RBV driver divides the FWHM-derived sigma by the
axis voxel spacing before squaring; the Iterative Yang driver squares sigma
directly, so whenever sigma is nonzero and the squared spacing is not 1 the
two modes hand different variances to their blur operators, related by the
squared spacing. -/
theorem claim_C2_variance_spacing (sigma spacing : ℚ) (hsig : sigma ≠ 0)
    (hsp : spacing ≠ 0) (hsp1 : spacing ^ 2 ≠ 1) :
    rbvAxisVariance sigma spacing * spacing ^ 2 = iyAxisVariance sigma ∧
    iyAxisVariance sigma ≠ rbvAxisVariance sigma spacing := by
  constructor
  · simp only [rbvAxisVariance, iyAxisVariance]
    field_simp
  · simp only [rbvAxisVariance, iyAxisVariance, div_pow]
    intro h
    apply hsp1
    have hs2 : sigma ^ 2 ≠ 0 := pow_ne_zero 2 hsig
    have hp2 : spacing ^ 2 ≠ 0 := pow_ne_zero 2 hsp
    field_simp at h
    rcases h with h | h <;> rw [h] <;> norm_num

/-- Witness for C2 at sigma = 3, spacing = 2. -/
theorem claim_C2_variance_spacing_witness :
    rbvAxisVariance 3 2 * 2 ^ 2 = iyAxisVariance 3 ∧
    iyAxisVariance 3 ≠ rbvAxisVariance 3 2 :=
  claim_C2_variance_spacing 3 2 (by norm_num) (by norm_num) (by norm_num)

/-! ## Regional mean extraction (RBV.cxx lines 234-265)

For each region class the driver multiplies the PET volume by the extracted
region mask, sums the product, and divides by the region size obtained from
the GTM filter (GetSumOfRegions).  The division at line 262 is a plain float
division with no zero test; in IEEE arithmetic a zero divisor yields a
non-finite value (infinity or NaN) and execution continues. -/

/-- A float-valued result at the value level: either a finite value, or the
non-finite outcome (infinity or NaN) of a division by zero. -/
inductive FVal
  | fin (q : ℚ)
  | nonfinite
deriving DecidableEq

/-- Float division at the value level: a zero divisor yields a non-finite
value instead of failing. -/
def fdiv (num den : ℚ) : FVal :=
  if den = 0 then FVal.nonfinite else FVal.fin (num / den)

/-- Modelled from the spec: GetSumOfRegions of the GTM filter lives in
GTMFilter.h, which is not under src.  Per spec section 4.1, region size S j is
the voxel count (fuzzy-weighted sum) of region j. -/
def sumOfRegion {ι : Type} [Fintype ι] {K : ℕ} (mask : Fin K → Volume ι)
    (j : Fin K) : ℚ :=
  ∑ v : ι, mask j v

/-- The regional mean of RBV.cxx lines 234-265: sum of the PET volume clipped
to the region mask, divided — with no zero test, line 262 — by the region
size. -/
def regionalMean {ι : Type} [Fintype ι] {K : ℕ} (pet : Volume ι)
    (mask : Fin K → Volume ι) (j : Fin K) : FVal :=
  fdiv (∑ v : ι, pet v * mask j v) (sumOfRegion mask j)

/-- C3 counterexample.  A region with zero size does not make the run fail:
on a one-voxel grid with an all-zero region mask, the regional mean is
computed as a division by zero and the non-finite result is stored silently —
there is no DivisionByZeroError anywhere in the driver. -/
theorem claim_C3_zero_region_cex :
    regionalMean (ι := Fin 1) (fun _ => 1) (fun (_ : Fin 1) _ => 0) 0 =
      FVal.nonfinite := by
  norm_num [regionalMean, sumOfRegion, fdiv]

/-- C3 amended.  The regional mean division is unguarded: whenever region j
has zero size the extraction yields a non-finite mean silently (no error is
raised and the run continues), and only regions of nonzero size receive the
finite quotient. -/
theorem claim_C3_zero_region_nonfinite {ι : Type} [Fintype ι] {K : ℕ}
    (pet : Volume ι) (mask : Fin K → Volume ι) (j : Fin K)
    (h : sumOfRegion mask j = 0) :
    regionalMean pet mask j = FVal.nonfinite := by
  simp [regionalMean, fdiv, h]

/-- Witness for C3 on a one-voxel grid with an empty region. -/
theorem claim_C3_zero_region_nonfinite_witness :
    regionalMean (ι := Fin 1) (fun _ => 5) (fun (_ : Fin 2) _ => 0) 1 =
      FVal.nonfinite :=
  claim_C3_zero_region_nonfinite (fun _ => 5) (fun _ _ => 0) 1
    (by norm_num [sumOfRegion])

/-! ## Control flow of the RBV driver (RBV.cxx main, lines 87-309)

The executable stages of main in their source order, and the run outcome
(stages executed, exit code, standard-error lines) as a function of the
outcomes of the fallible external operations.  EXIT_SUCCESS is 0 and
EXIT_FAILURE is 1.  Note that the GTM filter update (line 185) is executed
before the mask dimensionality test (line 199), and that the catch block of
the GTM update (lines 186-189) prints the PET-read failure message. -/

/-- The stages of RBV.cxx main, in source order. -/
inductive Stage
  | parseArgs
  | readMask
  | readPET
  | computePSF
  | gtmUpdate
  | dimCheck
  | meansLoop
  | solveMeans
  | buildSynth
  | rbvCorrect
  | writeOut
deriving DecidableEq

/-- Outcomes of the fallible operations of a run: command-line parsing, the
two image reads, the GTM filter update, the mask dimensionality test, and the
output write.  The means loop, the solve, the synthetic build and the RBV
correction have no failure branch in the source. -/
structure ExtOutcomes where
  parseOk : Bool
  maskReadOk : Bool
  petReadOk : Bool
  gtmOk : Bool
  maskIs4D : Bool
  writeOk : Bool
deriving DecidableEq

/-- All external operations succeed. -/
def allOk : ExtOutcomes := ⟨true, true, true, true, true, true⟩

/-- Standard-error line for a mask read failure (RBV.cxx line 148). -/
def msgMaskReadFail (maskfile : String) : String :=
  "[Error]\tCannot read mask input file: " ++ maskfile

/-- Standard-error line for a PET read failure (RBV.cxx line 161). -/
def msgPetReadFail (petfile : String) : String :=
  "[Error]\tCannot read PET input file: " ++ petfile

/-- Standard-error line for a GTM update failure (RBV.cxx line 187): the
catch block prints the PET-read failure text with the PET path. -/
def msgGtmFail (petfile : String) : String :=
  "[Error]\tCannot read PET input file: " ++ petfile

/-- Standard-error line for the mask dimensionality failure (RBV.cxx
line 202). -/
def msgDimFail (maskfile : String) : String :=
  "[Error]\tMask file: " ++ maskfile ++ " must be 4-D!"

/-- Standard-error line for a write failure (RBV.cxx line 302). -/
def msgWriteFail (outfile : String) : String :=
  "[Error]\tCannot write output file: " ++ outfile

/-- Outcome of one driver run: the stages executed in order, the process
exit code, and the lines written to standard error. -/
structure RunOutcome where
  executed : List Stage
  exitCode : ℕ
  errLines : List String
deriving DecidableEq

/-- The control flow of RBV.cxx main as a function of the external
outcomes: each fallible operation either succeeds, continuing to the next
stage in source order, or fails, returning EXIT_FAILURE (1) after printing
its message.  The full successful run executes every stage and returns
EXIT_SUCCESS (0). -/
def runRBV (ext : ExtOutcomes) (petfile maskfile outfile : String) :
    RunOutcome :=
  if ext.parseOk = false then
    ⟨[Stage.parseArgs], 1, []⟩
  else if ext.maskReadOk = false then
    ⟨[Stage.parseArgs, Stage.readMask], 1, [msgMaskReadFail maskfile]⟩
  else if ext.petReadOk = false then
    ⟨[Stage.parseArgs, Stage.readMask, Stage.readPET], 1,
      [msgPetReadFail petfile]⟩
  else if ext.gtmOk = false then
    ⟨[Stage.parseArgs, Stage.readMask, Stage.readPET, Stage.computePSF,
      Stage.gtmUpdate], 1, [msgGtmFail petfile]⟩
  else if ext.maskIs4D = false then
    ⟨[Stage.parseArgs, Stage.readMask, Stage.readPET, Stage.computePSF,
      Stage.gtmUpdate, Stage.dimCheck], 1, [msgDimFail maskfile]⟩
  else if ext.writeOk = false then
    ⟨[Stage.parseArgs, Stage.readMask, Stage.readPET, Stage.computePSF,
      Stage.gtmUpdate, Stage.dimCheck, Stage.meansLoop, Stage.solveMeans,
      Stage.buildSynth, Stage.rbvCorrect, Stage.writeOut], 1,
      [msgWriteFail outfile]⟩
  else
    ⟨[Stage.parseArgs, Stage.readMask, Stage.readPET, Stage.computePSF,
      Stage.gtmUpdate, Stage.dimCheck, Stage.meansLoop, Stage.solveMeans,
      Stage.buildSynth, Stage.rbvCorrect, Stage.writeOut], 0, []⟩

/-- C4 counterexample.  A run whose mask fails the dimensionality test (the
only 3-D-mask failure path) still executes the GTM filter update: the update
at RBV.cxx line 185 precedes the dimensionality test at line 199, so the run
does not fail before GTM computation. -/
theorem claim_C4_dim_check_cex :
    Stage.gtmUpdate ∈
      (runRBV ⟨true, true, true, true, false, true⟩
        "pet.nii" "mask.nii" "out.nii").executed ∧
    (runRBV ⟨true, true, true, true, false, true⟩
        "pet.nii" "mask.nii" "out.nii").exitCode = 1 := by
  constructor <;> decide

/-- C4 amended.  A mask failing the dimensionality test aborts the run with
exit code 1 and an error naming the mask file, but only after the GTM filter
update has already been executed: the executed trace places gtmUpdate
immediately before dimCheck. -/
theorem claim_C4_dim_check_after_gtm (ext : ExtOutcomes)
    (petfile maskfile outfile : String) (hp : ext.parseOk = true)
    (hm : ext.maskReadOk = true) (hpet : ext.petReadOk = true)
    (hg : ext.gtmOk = true) (hd : ext.maskIs4D = false) :
    (runRBV ext petfile maskfile outfile).executed =
      [Stage.parseArgs, Stage.readMask, Stage.readPET, Stage.computePSF,
       Stage.gtmUpdate, Stage.dimCheck] ∧
    (runRBV ext petfile maskfile outfile).exitCode = 1 ∧
    (runRBV ext petfile maskfile outfile).errLines = [msgDimFail maskfile] := by
  simp [runRBV, hp, hm, hpet, hg, hd]

/-- Witness for C4: the concrete failing-dimensionality run. -/
theorem claim_C4_dim_check_after_gtm_witness :
    (runRBV ⟨true, true, true, true, false, true⟩ "p" "m" "o").executed =
      [Stage.parseArgs, Stage.readMask, Stage.readPET, Stage.computePSF,
       Stage.gtmUpdate, Stage.dimCheck] ∧
    (runRBV ⟨true, true, true, true, false, true⟩ "p" "m" "o").exitCode = 1 ∧
    (runRBV ⟨true, true, true, true, false, true⟩ "p" "m" "o").errLines =
      [msgDimFail "m"] :=
  claim_C4_dim_check_after_gtm ⟨true, true, true, true, false, true⟩
    "p" "m" "o" rfl rfl rfl rfl rfl

/-- C9.  The exit-code half of the claim holds: a run exits 0 exactly when
every external operation succeeds, and every failing run exits 1 (nonzero).
The standard-error half fails on the GTM branch: a run whose GTM update
throws prints exactly the PET-read failure line with the PET path —
character for character the message of the PET-read branch — so the message
identifies neither the stage that failed (GTM computation, not reading) nor
the offending file. -/
theorem claim_C9_exit_codes (petfile maskfile outfile : String) :
    ((runRBV allOk petfile maskfile outfile).exitCode = 0) ∧
    (∀ ext : ExtOutcomes, ext ≠ allOk →
      (runRBV ext petfile maskfile outfile).exitCode = 1) ∧
    ((runRBV ⟨true, true, true, false, true, true⟩
        petfile maskfile outfile).errLines = [msgPetReadFail petfile]) := by
  refine ⟨rfl, ?_, rfl⟩
  intro ext hne
  obtain ⟨p1, p2, p3, p4, p5, p6⟩ := ext
  cases p1 <;> cases p2 <;> cases p3 <;> cases p4 <;> cases p5 <;> cases p6 <;>
    first
      | rfl
      | exact absurd rfl hne

/-- Witness for C9 at concrete paths and the all-but-GTM-successful run. -/
theorem claim_C9_exit_codes_witness :
    (runRBV ⟨true, true, true, false, true, true⟩ "p" "m" "o").exitCode = 1 :=
  (claim_C9_exit_codes "p" "m" "o").2.1 ⟨true, true, true, false, true, true⟩
    (by decide)

/-! ## The GTM and the composed RBV pipeline (for the zero-PSF round trip) -/

/-- Modelled from the spec: the GTM Builder lives in GTMFilter.h, which is
not under src.  Per spec sections 3 and 4.1, entry `M i j` is the mean over
the voxels of region i of the region-j indicator blurred by the PSF: the sum
of the product of the region-i indicator with the blurred region-j indicator,
divided by the region-i size. -/
def gtmMatrix {ι : Type} [Fintype ι] {K : ℕ} (blur : Volume ι → Volume ι)
    (mask : Fin K → Volume ι) : Matrix (Fin K) (Fin K) ℚ :=
  Matrix.of fun i j => (∑ v : ι, mask i v * blur (mask j) v) / sumOfRegion mask i

/-- The regional mean as a rational value: the finite value of
`regionalMean` whenever the region size is nonzero (the unguarded float
division of RBV.cxx line 262 idealised to total rational division), used to
compose the pipeline. -/
def regionalMeanQ {ι : Type} [Fintype ι] {K : ℕ} (pet : Volume ι)
    (mask : Fin K → Volume ι) (j : Fin K) : ℚ :=
  (∑ v : ι, pet v * mask j v) / sumOfRegion mask j

/-- The linear solve of RBV.cxx line 274 for a K-region GTM.  On a
nonsingular matrix the SVD pseudo-inverse computed by vnl_matrix_inverse is
the exact inverse, expressed here through the adjugate; this K-region model
is faithful only on nonsingular matrices (the singular branch is modelled
exactly for the 2-by-2 case by `pinv2`). -/
def solveMeans {K : ℕ} (M : Matrix (Fin K) (Fin K) ℚ) (v : Fin K → ℚ) :
    Fin K → ℚ :=
  Matrix.mulVec ((M.det)⁻¹ • M.adjugate) v

/-- The post-read computation of RBV.cxx main (lines 179-292): build the
GTM, extract the observed regional means, solve for the corrected means,
paint the synthetic PET, and apply the RBV correction. -/
def rbvPipeline {ι : Type} [Fintype ι] (K : ℕ) (blur : Volume ι → Volume ι)
    (pet : Volume ι) (mask : Fin K → Volume ι) : Option (Volume ι) :=
  (getSyntheticPET K mask
      (solveMeans (gtmMatrix blur mask) (regionalMeanQ pet mask))).map
    (fun synth => getRBVImage pet synth blur)

/-- Unfolding of the pipeline for at least one region. -/
lemma rbvPipeline_eq {ι : Type} [Fintype ι] {K : ℕ} (hK : 1 ≤ K)
    (blur : Volume ι → Volume ι) (pet : Volume ι) (mask : Fin K → Volume ι) :
    rbvPipeline K blur pet mask = some (getRBVImage pet
      (fun v => ∑ j : Fin K, mask j v *
        solveMeans (gtmMatrix blur mask) (regionalMeanQ pet mask) j) blur) := by
  unfold rbvPipeline
  rw [getSyntheticPET_eq_sum hK]
  rfl

/-- With the identity blur (zero PSF variance), binary pairwise-disjoint
masks of nonzero size give the identity GTM. -/
lemma gtm_id_of_binary_disjoint {ι : Type} [Fintype ι] {K : ℕ}
    (mask : Fin K → Volume ι)
    (hbin : ∀ (j : Fin K) (v : ι), mask j v = 0 ∨ mask j v = 1)
    (hdisj : ∀ (j k : Fin K) (v : ι), j ≠ k → mask j v * mask k v = 0)
    (hne : ∀ j : Fin K, sumOfRegion mask j ≠ 0) :
    gtmMatrix id mask = 1 := by
  ext i j
  by_cases hij : i = j
  · subst hij
    have hsq : ∀ v : ι, mask i v * mask i v = mask i v := by
      intro v
      rcases hbin i v with h | h <;> simp [h]
    simp only [gtmMatrix, Matrix.of_apply, id_eq, Matrix.one_apply_eq]
    rw [Finset.sum_congr rfl (fun v _ => hsq v)]
    exact div_self (hne i)
  · simp only [gtmMatrix, Matrix.of_apply, id_eq, Matrix.one_apply_ne hij]
    rw [Finset.sum_eq_zero (fun v _ => hdisj i j v hij)]
    exact zero_div _

/-- Solving with the identity matrix returns the observed means unchanged. -/
lemma solveMeans_one {K : ℕ} (v : Fin K → ℚ) :
    solveMeans (1 : Matrix (Fin K) (Fin K) ℚ) v = v := by
  simp [solveMeans, Matrix.det_one, Matrix.adjugate_one]

/-- A one-region mask on a two-voxel grid covering only voxel 0. -/
def testMask : Fin 1 → Volume (Fin 2) := fun _ v => if v = 0 then 1 else 0

/-- The constant-1 activity volume on the two-voxel grid. -/
def testPET : Volume (Fin 2) := fun _ => 1

/-- C8 counterexample.  The zero-PSF round trip fails as a statement about
every activity volume and RegionMaskSet: on a two-voxel grid with one region
covering only voxel 0 and constant activity 1, the GTM is the identity and
the corrected means equal the observed means, yet the RBV output is not the
original volume — at the uncovered voxel the synthetic volume is 0, the
correction factor is the quotient 0/0, and the output voxel is annihilated
(exactly 0 against an original value of 1, beyond any floating tolerance;
in float arithmetic the 0/0 is NaN rather than 1). -/
theorem claim_C8_zero_psf_cex :
    rbvPipeline (ι := Fin 2) 1 id testPET testMask ≠ some testPET := by
  intro h
  rw [rbvPipeline_eq (by norm_num)] at h
  have heq := congrFun (Option.some.inj h) 1
  norm_num [getRBVImage, mulVol, divVol, testMask, testPET,
    Fin.sum_univ_one] at heq

/-- C8 amended.  With the identity blur (zero PSF variance) and a
RegionMaskSet of binary, pairwise-disjoint, nonzero-size regions: the GTM is
the identity matrix, the corrected means equal the observed means, and the
RBV output agrees with the original activity volume at every voxel where the
synthetic volume is nonzero (at a voxel claimed by no region, or claimed only
by regions of zero corrected mean, the synthetic volume vanishes and the
output voxel is the 0/0 artefact instead of the original value). -/
theorem claim_C8_zero_psf_roundtrip {ι : Type} [Fintype ι] {K : ℕ}
    (hK : 1 ≤ K) (pet : Volume ι) (mask : Fin K → Volume ι)
    (hbin : ∀ (j : Fin K) (v : ι), mask j v = 0 ∨ mask j v = 1)
    (hdisj : ∀ (j k : Fin K) (v : ι), j ≠ k → mask j v * mask k v = 0)
    (hne : ∀ j : Fin K, sumOfRegion mask j ≠ 0) :
    gtmMatrix id mask = 1 ∧
    solveMeans (gtmMatrix id mask) (regionalMeanQ pet mask) =
      regionalMeanQ pet mask ∧
    ∃ out : Volume ι, rbvPipeline K id pet mask = some out ∧
      ∀ v : ι, (∑ j : Fin K, mask j v * regionalMeanQ pet mask j) ≠ 0 →
        out v = pet v := by
  have hgtm : gtmMatrix id mask = 1 := gtm_id_of_binary_disjoint mask hbin hdisj hne
  have hcorr : solveMeans (gtmMatrix id mask) (regionalMeanQ pet mask) =
      regionalMeanQ pet mask := by
    rw [hgtm]
    exact solveMeans_one _
  refine ⟨hgtm, hcorr, ?_⟩
  refine ⟨_, rbvPipeline_eq hK id pet mask, ?_⟩
  intro v hv
  simp only [getRBVImage, mulVol, divVol, id_eq, hcorr]
  rw [div_self hv, mul_one]

/-- Witness for C8: a single all-covering region on a one-voxel grid with
constant activity 2; the zero-PSF pipeline reproduces the activity value. -/
theorem claim_C8_zero_psf_roundtrip_witness :
    gtmMatrix (ι := Fin 1) id (fun (_ : Fin 1) _ => 1) = 1 := by
  have h := claim_C8_zero_psf_roundtrip (ι := Fin 1) (K := 1) (by norm_num)
    (fun _ => 2) (fun _ _ => 1)
    (fun j v => Or.inr rfl)
    (fun j k v hjk => absurd (Subsingleton.elim j k) hjk)
    (fun j => by norm_num [sumOfRegion])
  exact h.1

end Petpvc
